import Mathlib

/-!
Verification of the agentic P5.js feedback-loop repository.

The development shallowly embeds the algorithmic core of the repository:

* `src/universalOrchestrator.js` — the session loop of
  `UniversalOrchestrator.runSession` (round recording, early exit on the
  target score, best-iteration bookkeeping, and the behaviour of a
  generation-gateway failure);
* `src/gemini_llama_orchestartor.js` — the error-fix loop and the
  last-working-code fallback of `PixelFeedbackLoopTest.runPixelFeedbackLoop`;
* `src/lib/simplifiedPixelAnalyzer.js` — the region data model,
  `regionsOverlap`, `shouldMergeRegions`, `mergeRegions`,
  `consolidateOverlappingRegions`, `filterSignificantRegions`,
  `findMajorRegions` / `floodFillRegion`, `findBestColorMatch`,
  `createSimpleInstructions` and `calculateSimpleScore`.

JavaScript numbers are embedded as `Int` (every quantity manipulated by the
embedded code is integer valued); the floating-point comparisons of the
source (`area1 > totalImageArea * 0.5`, `aspectRatio > 8`, Euclidean colour
distances compared by `Math.sqrt`) are rendered by the exact equivalent
integer comparisons (`2 * area1 > totalImageArea`, `8 * mn < mx`,
squared-distance comparisons), which agree with the double-precision
evaluation on all integer inputs the code can produce.  External services
(the code generator, the error detector, the renderer) appear as oracle
functions; fallible calls return `Except`.
-/

namespace AgenticP5

/-! ## Session loop of `UniversalOrchestrator.runSession`

`src/universalOrchestrator.js` lines 80-189: rounds run for
`iteration = 1 .. maxIterations`; every round records an evaluation score
and the loop breaks right after recording a score `>= targetScore`.
The scores produced by `evaluateIteration` are natural numbers
(`result.success ? 10 : 0`, or `Math.round(groqResult.score * 2)` of a
non-negative scale), so scores are embedded as `Nat`.

`sessionRounds score target fuel i` returns the list of scores of the
rounds the loop actually completes, where `score k` is the evaluation
score of round `k`, starting at round `i` with `fuel` rounds of budget
remaining. -/

def sessionRounds (score : Nat → Nat) (target : Nat) : Nat → Nat → List Nat
  | 0, _ => []
  | fuel + 1, i =>
    let s := score i
    if target ≤ s then [s]
    else s :: sessionRounds score target fuel (i + 1)

/-- The rounds recorded by `runSession`: round numbers start at 1 and the
budget is `maxIterations`. -/
def runSessionRounds (score : Nat → Nat) (maxIterations target : Nat) : List Nat :=
  sessionRounds score target maxIterations 1

theorem sessionRounds_length_le (score : Nat → Nat) (target : Nat) :
    ∀ fuel i, (sessionRounds score target fuel i).length ≤ fuel := by
  intro fuel
  induction fuel with
  | zero => intro i; simp [sessionRounds]
  | succ n ih =>
    intro i
    simp only [sessionRounds]
    split
    · simp
    · simpa using Nat.succ_le_succ (ih (i + 1))

theorem sessionRounds_length_lt_iff (score : Nat → Nat) (target : Nat) :
    ∀ fuel i, (sessionRounds score target fuel i).length < fuel ↔
      ∃ j, j + 1 < fuel ∧ target ≤ score (i + j) := by
  intro fuel
  induction fuel with
  | zero => intro i; simp [sessionRounds]
  | succ n ih =>
    intro i
    simp only [sessionRounds]
    split
    · rename_i h
      constructor
      · intro hlen
        exact ⟨0, by simpa using hlen, by simpa using h⟩
      · rintro ⟨j, hj, _⟩
        simp only [List.length_singleton]
        omega
    · rename_i h
      rw [List.length_cons, Nat.succ_lt_succ_iff, ih (i + 1)]
      constructor
      · rintro ⟨j, hj, hsc⟩
        exact ⟨j + 1, by omega, by rw [show i + (j + 1) = i + 1 + j by omega]; exact hsc⟩
      · rintro ⟨j, hj, hsc⟩
        match j with
        | 0 => exact absurd (by simpa using hsc) h
        | j + 1 =>
          exact ⟨j, by omega, by rw [show i + 1 + j = i + (j + 1) by omega]; exact hsc⟩

/-- C1, claim as frozen, fails: with `maxIterations = 1` and a round-1 score
of 60 against a target of 50, the session records exactly 1 round — it does
not exit before reaching the configured maximum — yet a recorded round's
score meets the threshold, so the claimed "exits early iff some round's
score meets the threshold" equivalence is false at this input. -/
theorem c1_early_exit_iff_counterexample :
    ¬ (((runSessionRounds (fun _ => 60) 1 50).length < 1) ↔
        ∃ s ∈ runSessionRounds (fun _ => 60) 1 50, 50 ≤ s) := by
  decide

/-- C1 (amended): the number of completed rounds never exceeds the
configured maximum, and the loop exits with strictly fewer rounds than the
maximum if and only if some round with index strictly below the maximum
has a score meeting the target threshold.  (The frozen claim's "iff some
round's score meets the threshold" fails when the threshold is first met
exactly at round `maxIterations`.) -/
theorem c1_round_budget_invariant (score : Nat → Nat) (maxIterations target : Nat) :
    (runSessionRounds score maxIterations target).length ≤ maxIterations ∧
      ((runSessionRounds score maxIterations target).length < maxIterations ↔
        ∃ k, 1 ≤ k ∧ k < maxIterations ∧ target ≤ score k) := by
  refine ⟨sessionRounds_length_le score target maxIterations 1, ?_⟩
  rw [runSessionRounds, sessionRounds_length_lt_iff score target maxIterations 1]
  constructor
  · rintro ⟨j, hj, hsc⟩
    exact ⟨1 + j, by omega, by omega, hsc⟩
  · rintro ⟨k, hk1, hk2, hsc⟩
    exact ⟨k - 1, by omega, by rw [show 1 + (k - 1) = k by omega]; exact hsc⟩

/-! ## Best-iteration bookkeeping of `runSession`

`src/universalOrchestrator.js` lines 72-76 and 157-162: `bestScore`
starts at 0, `bestIteration` starts at 1, and after each round's
evaluation the pair is updated only when `evaluation.score > bestScore`
(strict improvement). -/

def trackBestAux : List Nat → Nat → Nat → Nat → Nat × Nat
  | [], _, bestScore, bestIteration => (bestScore, bestIteration)
  | s :: rest, i, bestScore, bestIteration =>
    if bestScore < s then trackBestAux rest (i + 1) s i
    else trackBestAux rest (i + 1) bestScore bestIteration

/-- The `(bestScore, bestIteration)` pair tracked by `runSession` after the
rounds whose scores are `scores` have completed (round numbers are
1-based, initial state `bestScore = 0`, `bestIteration = 1`). -/
def trackBest (scores : List Nat) : Nat × Nat :=
  trackBestAux scores 1 0 1

theorem trackBestAux_spec (scores : List Nat) :
    ∀ i bs bi,
      trackBestAux scores i bs bi =
        if bs < scores.foldr max 0 then
          (scores.foldr max 0, i + scores.indexOf (scores.foldr max 0))
        else (bs, bi) := by
  induction scores with
  | nil => intro i bs bi; simp [trackBestAux]
  | cons s rest ih =>
    intro i bs bi
    simp only [trackBestAux, List.foldr_cons]
    by_cases hbs : bs < s
    · rw [if_pos hbs, ih (i + 1) s i]
      by_cases hsM : s < rest.foldr max 0
      · have hmax : max s (rest.foldr max 0) = rest.foldr max 0 := max_eq_right hsM.le
        rw [if_pos hsM, hmax, if_pos (by omega),
          List.indexOf_cons_ne rest (by omega : s ≠ rest.foldr max 0)]
        simp only [Nat.succ_eq_add_one, Prod.mk.injEq, true_and]
        omega
      · have hmax : max s (rest.foldr max 0) = s := max_eq_left (by omega)
        rw [if_neg hsM, hmax, if_pos hbs, List.indexOf_cons_self]
        simp
    · rw [if_neg hbs, ih (i + 1) bs bi]
      by_cases hbM : bs < rest.foldr max 0
      · have hsM : s < rest.foldr max 0 := by omega
        have hmax : max s (rest.foldr max 0) = rest.foldr max 0 := max_eq_right hsM.le
        rw [if_pos hbM, hmax, if_pos hbM,
          List.indexOf_cons_ne rest (by omega : s ≠ rest.foldr max 0)]
        simp only [Nat.succ_eq_add_one, Prod.mk.injEq, true_and]
        omega
      · rw [if_neg hbM, if_neg (by simp only [not_lt, max_le_iff]; omega)]

theorem foldr_max_mem (l : List Nat) (h : l ≠ []) : l.foldr max 0 ∈ l := by
  induction l with
  | nil => exact absurd rfl h
  | cons x rest ih =>
    match rest with
    | [] => simp
    | y :: rest' =>
      rcases max_choice x ((y :: rest').foldr max 0) with hx | hx
      · simp only [List.foldr_cons] at hx ⊢
        rw [hx]
        exact List.mem_cons_self x _
      · simp only [List.foldr_cons] at hx ⊢
        rw [hx]
        exact List.mem_cons_of_mem x (ih (by simp))

theorem get_ne_of_lt_indexOf {α : Type} [DecidableEq α] (l : List α) (a : α) :
    ∀ j (hj : j < l.length), j < l.indexOf a → l.get ⟨j, hj⟩ ≠ a := by
  induction l with
  | nil => intro j hj; simp at hj
  | cons b rest ih =>
    intro j hj hlt
    by_cases hba : b = a
    · rw [List.indexOf_cons_eq rest hba] at hlt
      omega
    · rw [List.indexOf_cons_ne rest hba] at hlt
      match j with
      | 0 => simpa using hba
      | j + 1 =>
        simp only [List.get_cons_succ]
        exact ih j (by simpa using hj) (by omega)

/-- C2 (confirmed): after every round (i.e. for every non-empty list of
recorded round scores) the tracked best score equals the maximum of the
recorded scores, and the tracked best-iteration index (1-based) points at
the earliest round achieving that maximum: the round at that index has the
maximal score and every strictly earlier round has a different (hence
strictly smaller) score. -/
theorem c2_best_iteration_invariant (scores : List Nat) (h : scores ≠ []) :
    (trackBest scores).1 = scores.foldr max 0 ∧
      ∃ hlt : (trackBest scores).2 - 1 < scores.length,
        scores.get ⟨(trackBest scores).2 - 1, hlt⟩ = scores.foldr max 0 ∧
        ∀ j (hj : j < scores.length), j < (trackBest scores).2 - 1 →
          scores.get ⟨j, hj⟩ ≠ scores.foldr max 0 := by
  have hmem : scores.foldr max 0 ∈ scores := foldr_max_mem scores h
  have hidx : scores.indexOf (scores.foldr max 0) < scores.length :=
    List.indexOf_lt_length.mpr hmem
  have key : trackBest scores =
      (scores.foldr max 0, scores.indexOf (scores.foldr max 0) + 1) := by
    rw [trackBest, trackBestAux_spec scores 1 0 1]
    by_cases hM : 0 < scores.foldr max 0
    · rw [if_pos hM, Prod.mk.injEq]
      exact ⟨rfl, by omega⟩
    · rw [if_neg hM]
      have hM0 : scores.foldr max 0 = 0 := by omega
      have hidx0 : scores.indexOf (scores.foldr max 0) = 0 := by
        match scores, h with
        | x :: rest, _ =>
          have hx : x = 0 := by
            have hle : x ≤ (x :: rest).foldr max 0 := by
              simp only [List.foldr_cons]
              exact le_max_left _ _
            omega
          rw [hM0, hx, List.indexOf_cons_self]
      rw [hM0] at hidx0 ⊢
      rw [hidx0]
  rw [key]
  refine ⟨rfl, ?_⟩
  have h1 : scores.indexOf (scores.foldr max 0) + 1 - 1 =
      scores.indexOf (scores.foldr max 0) := by omega
  simp only [h1]
  exact ⟨hidx, List.indexOf_get hidx,
    fun j hj hlt => get_ne_of_lt_indexOf scores _ j hj hlt⟩

/-- Witness for `c2_best_iteration_invariant` at the concrete score list
`[3, 7, 7]`: the tracked best is the maximum 7, first achieved at round 2. -/
theorem c2_best_iteration_invariant_witness :
    ([3, 7, 7] : List Nat) ≠ [] ∧
      ((trackBest [3, 7, 7]).1 = ([3, 7, 7] : List Nat).foldr max 0 ∧
        ∃ hlt : (trackBest [3, 7, 7]).2 - 1 < ([3, 7, 7] : List Nat).length,
          ([3, 7, 7] : List Nat).get ⟨(trackBest [3, 7, 7]).2 - 1, hlt⟩ =
            ([3, 7, 7] : List Nat).foldr max 0 ∧
          ∀ j (hj : j < ([3, 7, 7] : List Nat).length),
            j < (trackBest [3, 7, 7]).2 - 1 →
            ([3, 7, 7] : List Nat).get ⟨j, hj⟩ ≠ ([3, 7, 7] : List Nat).foldr max 0) :=
  ⟨by decide, c2_best_iteration_invariant [3, 7, 7] (by decide)⟩

/-! ## Generation-gateway failures inside `runSession`

`src/universalOrchestrator.js` lines 80-214: each round begins with
`await this.generateCode(...)` (lines 98-104), which calls
`GeminiCodeGenerator.generateInitialCode` / `generateImprovedCode`; those
re-`throw` on any API failure (`src/lib/geminiCodeGenerator.js`).  There
is no per-round `try`/`catch`: the only handler is the session-level
`catch (error)` at lines 211-214, which logs and re-`throw`s.

`runSessionE` refines `sessionRounds` with a fallible generation oracle
`gen` (round number ↦ generated code or a thrown error message):
a generation error at any round aborts the whole session with that error,
exactly as the exception propagates in the source. -/

def runSessionE (gen : Nat → Except String String) (score : Nat → Nat) (target : Nat) :
    Nat → Nat → Except String (List Nat)
  | 0, _ => .ok []
  | fuel + 1, i =>
    match gen i with
    | .error e => .error e
    | .ok _ =>
      let s := score i
      if target ≤ s then .ok [s]
      else
        match runSessionE gen score target fuel (i + 1) with
        | .error e => .error e
        | .ok rest => .ok (s :: rest)

/-- Concrete generation oracle for the C7 counterexample: round 2's
gateway call throws, every other round succeeds. -/
def genFailsAtTwo : Nat → Except String String :=
  fun k => if k = 2 then .error "gateway boom" else .ok "code"

/-- C7, claim as frozen, fails: with a 3-round budget, target 50, scores
all 0 and a generation failure at round 2 (a round after the first), the
session does not record round 2 with a penalized score and continue — the
thrown error propagates through the session-level catch and the whole
session aborts with the gateway error. -/
theorem c7_generation_failure_counterexample :
    runSessionE genFailsAtTwo (fun _ => 0) 50 3 1 = Except.error "gateway boom" := by
  rfl

/-- C7 (amended): a generation-gateway failure at ANY round — not only
round 1 — is fatal to the session: if every round before `k` generates
successfully and scores below the target, and round `k`'s generation
fails with error `e`, the whole session run aborts with error `e`
(no round is recorded with a penalized score, and no later round runs). -/
theorem c7_generation_failure_fatal (gen : Nat → Except String String)
    (score : Nat → Nat) (target : Nat) :
    ∀ fuel i k e, i ≤ k → k < i + fuel → gen k = Except.error e →
      (∀ j, i ≤ j → j < k → (∃ c, gen j = Except.ok c) ∧ score j < target) →
      runSessionE gen score target fuel i = Except.error e := by
  intro fuel
  induction fuel with
  | zero => intro i k e h1 h2; omega
  | succ n ih =>
    intro i k e h1 h2 hgen hprev
    by_cases hik : i = k
    · subst hik
      simp only [runSessionE, hgen]
    · obtain ⟨⟨c, hc⟩, hscore⟩ := hprev i le_rfl (by omega)
      simp only [runSessionE, hc]
      rw [if_neg (by omega)]
      rw [ih (i + 1) k e (by omega) (by omega) hgen
        (fun j hj1 hj2 => hprev j (by omega) hj2)]

/-- Witness for `c7_generation_failure_fatal`: with the concrete oracle
failing at round 2, round 1 succeeding with score 0 against target 50,
the session aborts with the gateway error. -/
theorem c7_generation_failure_fatal_witness :
    (1 : Nat) ≤ 2 ∧ (2 : Nat) < 1 + 3 ∧ genFailsAtTwo 2 = Except.error "gateway boom" ∧
      runSessionE genFailsAtTwo (fun _ => 0) 50 3 1 = Except.error "gateway boom" :=
  ⟨by decide, by decide, by rfl,
    c7_generation_failure_fatal genFailsAtTwo (fun _ => 0) 50 3 1 2 "gateway boom"
      (by decide) (by decide) (by rfl)
      (fun j hj1 hj2 => ⟨⟨"code", by
        have : j = 1 := by omega
        rw [this]; rfl⟩, by simp⟩)⟩

/-! ## Error-repair sub-loop of `PixelFeedbackLoopTest.runPixelFeedbackLoop`

`src/gemini_llama_orchestartor.js` lines 97-138, with the bounds from the
constructor (lines 24-28: `maxFixAttempts = 5`, `maxFallbacks = 3`).
The error detector and the repair call are embedded as deterministic
oracles: `detect code = true` iff `detectErrors` reports
`hasErrors` for that code, and `fixf code attempt` is the code returned by
`fixJavaScriptErrors` for that code at that attempt number (the formatted
error message passed to the repairer is itself a function of the detected
errors of `code`, so it is absorbed into the oracle).

`fixLoopRem detect fixf rem attempt code` runs the inner
`for (fixAttempt = attempt; ...)` loop with `rem` attempts remaining and
returns `(finalCode, errorFixed)`:
on each attempt the detector runs on the current code; no errors ⇒ break
with `errorFixed = true`; errors on the last attempt ⇒ break with the
still-broken code; otherwise the repair oracle rewrites the code. -/

def fixLoopRem (detect : String → Bool) (fixf : String → Nat → String) :
    Nat → Nat → String → String × Bool
  | 0, _, code => (code, false)
  | 1, _, code => if detect code then (code, false) else (code, true)
  | rem + 2, attempt, code =>
    if detect code then fixLoopRem detect fixf (rem + 1) (attempt + 1) (fixf code attempt)
    else (code, true)

/-- One round's error handling in `runPixelFeedbackLoop` (lines 97-138):
the fix loop followed by the fallback block
`if (!errorFixed && lastWorkingCode && fallbackCount < this.maxFallbacks)`.
Returns `(finalCode, errorFixed, lastWorkingCode, fallbackCount)` as they
stand when the round proceeds to screenshot capture.  (`lastWorkingCode`
is updated to the final code whenever the detector reported no errors,
exactly as line 109 does inside the loop.) -/
def runFixAndFallback (detect : String → Bool) (fixf : String → Nat → String)
    (maxFixAttempts : Nat) (code0 : String) (lastWorkingCode : Option String)
    (fallbackCount maxFallbacks : Nat) : String × Bool × Option String × Nat :=
  let res := fixLoopRem detect fixf maxFixAttempts 1 code0
  let lw := if res.2 then some res.1 else lastWorkingCode
  if res.2 then (res.1, true, lw, fallbackCount)
  else
    match lastWorkingCode with
    | some w =>
      if fallbackCount < maxFallbacks then (w, true, lw, fallbackCount + 1)
      else (res.1, false, lw, fallbackCount)
    | none => (res.1, false, lw, fallbackCount)

/-- Detector oracle that always reports JavaScript errors. -/
def detectC8 : String → Bool := fun _ => true

/-- Repair oracle that returns the broken code unchanged on every attempt. -/
def fixC8 : String → Nat → String := fun code _ => code

/-- C8, claim as frozen, fails: the repair attempts are exhausted with
errors still present and a previously-cleanly-rendered version
(`some "good"`) exists in the session, yet because the session has already
used its 3 fallbacks (`fallbackCount = 3 = maxFallbacks`), the round keeps
the still-broken code `"bad"` instead of returning the last working
version — the fallback is additionally gated by `fallbackCount <
maxFallbacks`, which the claim omits. -/
theorem c8_fallback_counterexample :
    (fixLoopRem detectC8 fixC8 5 1 "bad").2 = false ∧
      (runFixAndFallback detectC8 fixC8 5 "bad" (some "good") 3 3).1 ≠ "good" := by
  decide

/-- C8 (amended): when the repair attempts are exhausted with errors still
present, the round returns the most recent cleanly-rendered code of the
session provided one exists AND fewer than `maxFallbacks` fallbacks have
been used so far; otherwise (no clean version, or the fallback budget is
spent) it returns the last still-broken repair attempt unchanged.  In all
cases the loop proceeds rather than aborting (the function totally
returns a code to render). -/
theorem c8_fallback_amended (detect : String → Bool) (fixf : String → Nat → String)
    (maxFixAttempts : Nat) (code0 : String) (lastWorkingCode : Option String)
    (fallbackCount maxFallbacks : Nat)
    (hexh : (fixLoopRem detect fixf maxFixAttempts 1 code0).2 = false) :
    (∀ w, lastWorkingCode = some w → fallbackCount < maxFallbacks →
      (runFixAndFallback detect fixf maxFixAttempts code0 lastWorkingCode
        fallbackCount maxFallbacks).1 = w) ∧
    (∀ w, lastWorkingCode = some w → ¬ fallbackCount < maxFallbacks →
      (runFixAndFallback detect fixf maxFixAttempts code0 lastWorkingCode
        fallbackCount maxFallbacks).1 =
        (fixLoopRem detect fixf maxFixAttempts 1 code0).1) ∧
    (lastWorkingCode = none →
      (runFixAndFallback detect fixf maxFixAttempts code0 lastWorkingCode
        fallbackCount maxFallbacks).1 =
        (fixLoopRem detect fixf maxFixAttempts 1 code0).1) := by
  refine ⟨?_, ?_, ?_⟩
  · intro w hw hfc
    subst hw
    simp only [runFixAndFallback, hexh]
    simp [if_pos hfc]
  · intro w hw hfc
    subst hw
    simp only [runFixAndFallback, hexh]
    simp [if_neg hfc]
  · intro hnone
    subst hnone
    simp [runFixAndFallback, hexh]

/-- Witness for `c8_fallback_amended`: with the always-erroring detector,
the identity repairer, a last working version `"good"` and an unused
fallback budget (0 of 3), the round returns `"good"`. -/
theorem c8_fallback_amended_witness :
    (fixLoopRem detectC8 fixC8 5 1 "bad").2 = false ∧
      (runFixAndFallback detectC8 fixC8 5 "bad" (some "good") 0 3).1 = "good" :=
  ⟨by decide,
    (c8_fallback_amended detectC8 fixC8 5 "bad" (some "good") 0 3 (by decide)).1
      "good" rfl (by decide)⟩

/-! ## Region data model of `SimplifiedPixelAnalyzer`

`src/lib/simplifiedPixelAnalyzer.js` lines 107-114: a region carries a
nearest-named-colour classification, the exact hex string, the seed RGB,
an axis-aligned bounding box, the box area and the flood-filled pixel
count.  All numeric fields are integer valued in the source (pixel
coordinates and counts), embedded as `Int`. -/

structure Bounds where
  x : Int
  y : Int
  width : Int
  height : Int
deriving DecidableEq

structure RGB where
  r : Int
  g : Int
  b : Int
deriving DecidableEq

structure Region where
  color : String
  hex : String
  rgb : RGB
  bounds : Bounds
  area : Int
  pixelCount : Int
deriving DecidableEq

/-- The source's aspect-ratio test
`Math.max(w, h) / Math.min(w, h) > k` (floating-point division).  For the
non-negative integer extents the analyzer produces this equals
`k * min < max`; the division-by-zero cases follow IEEE: `x / 0 =
Infinity > k` for `x > 0`, and `0 / 0 = NaN`, which is not `> k`. -/
def aspectRatioGT (b : Bounds) (k : Int) : Bool :=
  let mx := max b.width b.height
  let mn := min b.width b.height
  if mn = 0 then decide (mx ≠ 0) else decide (k * mn < mx)

/-! ## Scoring and instruction generation (lines 513-594) -/

/-- `findBestColorMatch` (lines 559-561): the FIRST generated region whose
colour classification equals the target region's (`Array.prototype.find`). -/
def findBestColorMatch (targetRegion : Region) (generatedRegions : List Region) :
    Option Region :=
  generatedRegions.find? (fun region => region.color == targetRegion.color)

/-- One loop body of `calculateSimpleScore` (lines 572-590): missing colour
match costs 25; otherwise tiered deductions for the Manhattan position
and size deltas. -/
def scoreStep (generatedRegions : List Region) (score : Int) (targetRegion : Region) :
    Int :=
  match findBestColorMatch targetRegion generatedRegions with
  | none => score - 25
  | some m =>
    let positionDiff := |targetRegion.bounds.x - m.bounds.x| +
      |targetRegion.bounds.y - m.bounds.y|
    let sizeDiff := |targetRegion.bounds.width - m.bounds.width| +
      |targetRegion.bounds.height - m.bounds.height|
    let score1 := if 50 < positionDiff then score - 5
      else if 20 < positionDiff then score - 2 else score
    if 50 < sizeDiff then score1 - 5
    else if 20 < sizeDiff then score1 - 2 else score1

/-- `calculateSimpleScore` (lines 566-594): start at 100, fold the
deductions over the first 4 target regions, floor at 0.  (`Math.round` is
the identity on the integer score, and the computed-but-unused
`maxRegions` local of line 567 is dead code.) -/
def calculateSimpleScore (targetRegions generatedRegions : List Region) : Int :=
  let mainTargetRegions := targetRegions.take 4
  max 0 (mainTargetRegions.foldl (scoreStep generatedRegions) 100)

/-- The "Add ... line/rectangle" instruction text of lines 530-536. -/
def addInstruction (t : Region) : String :=
  let b := t.bounds
  if aspectRatioGT b 8 then
    "Add " ++ t.hex ++ " line: " ++
      (if b.height < b.width then "horizontal" else "vertical") ++
      " at (" ++ toString b.x ++ ", " ++ toString b.y ++ "), size " ++
      toString b.width ++ "x" ++ toString b.height
  else
    "Add " ++ t.hex ++ " rectangle: rect(" ++ toString b.x ++ ", " ++
      toString b.y ++ ", " ++ toString b.width ++ ", " ++ toString b.height ++ ")"

/-- The "Fix ... move/resize" instruction text of lines 546-548. -/
def fixInstruction (t : Region) : String :=
  let b := t.bounds
  let shapeType := if aspectRatioGT b 8 then "line" else "rectangle"
  "Fix " ++ t.hex ++ " " ++ shapeType ++ ": move to (" ++ toString b.x ++ ", " ++
    toString b.y ++ ") and resize to " ++ toString b.width ++ "x" ++ toString b.height

/-- One loop body of `createSimpleInstructions` (lines 519-551). -/
def instructionStep (generatedRegions : List Region) (acc : List String) (t : Region) :
    List String :=
  match findBestColorMatch t generatedRegions with
  | none => acc ++ [addInstruction t]
  | some m =>
    let positionDiff := |t.bounds.x - m.bounds.x| + |t.bounds.y - m.bounds.y|
    let sizeDiff := |t.bounds.width - m.bounds.width| +
      |t.bounds.height - m.bounds.height|
    if 15 < positionDiff ∨ 15 < sizeDiff then acc ++ [fixInstruction t] else acc

/-- `createSimpleInstructions` (lines 513-554): one potential instruction
per region over the first 5 target regions, capped at 4 instructions. -/
def createSimpleInstructions (targetRegions generatedRegions : List Region) :
    List String :=
  ((targetRegions.take 5).foldl (instructionStep generatedRegions) []).take 4

theorem findBestColorMatch_self (R : List Region) (t : Region)
    (hp : R.Pairwise (fun a b => a.color ≠ b.color)) (ht : t ∈ R) :
    findBestColorMatch t R = some t := by
  induction R with
  | nil => simp at ht
  | cons r rest ih =>
    rw [List.pairwise_cons] at hp
    rcases List.mem_cons.mp ht with hrt | hrt
    · subst hrt
      simp [findBestColorMatch, List.find?_cons]
    · have hne : (r.color == t.color) = false := by
        simp only [beq_eq_false_iff_ne, ne_eq]
        exact hp.1 t hrt
      rw [findBestColorMatch, List.find?_cons, hne]
      exact ih hp.2 hrt

theorem scoreStep_self (R : List Region) (t : Region) (sc : Int)
    (hfind : findBestColorMatch t R = some t) :
    scoreStep R sc t = sc := by
  simp [scoreStep, hfind]

theorem instructionStep_self (R : List Region) (t : Region) (acc : List String)
    (hfind : findBestColorMatch t R = some t) :
    instructionStep R acc t = acc := by
  simp [instructionStep, hfind]

theorem foldl_scoreStep_fixed (R : List Region) :
    ∀ (l : List Region) (sc : Int),
      (∀ t ∈ l, findBestColorMatch t R = some t) →
      l.foldl (scoreStep R) sc = sc := by
  intro l
  induction l with
  | nil => intro sc _; rfl
  | cons t rest ih =>
    intro sc hall
    rw [List.foldl_cons, scoreStep_self R t sc (hall t (List.mem_cons_self t rest))]
    exact ih sc (fun u hu => hall u (List.mem_cons_of_mem t hu))

theorem foldl_instructionStep_fixed (R : List Region) :
    ∀ (l : List Region) (acc : List String),
      (∀ t ∈ l, findBestColorMatch t R = some t) →
      l.foldl (instructionStep R) acc = acc := by
  intro l
  induction l with
  | nil => intro acc _; rfl
  | cons t rest ih =>
    intro acc hall
    rw [List.foldl_cons, instructionStep_self R t acc (hall t (List.mem_cons_self t rest))]
    exact ih acc (fun u hu => hall u (List.mem_cons_of_mem t hu))

/-- A white 10x10 region at the origin. -/
def regionWhiteA : Region :=
  { color := "white", hex := "#FFFFFF", rgb := ⟨255, 255, 255⟩,
    bounds := ⟨0, 0, 10, 10⟩, area := 100, pixelCount := 25 }

/-- A second white 10x10 region 100 pixels below `regionWhiteA` (two
same-classification regions too far apart for consolidation to merge). -/
def regionWhiteB : Region :=
  { color := "white", hex := "#FFFFFF", rgb := ⟨255, 255, 255⟩,
    bounds := ⟨0, 100, 10, 10⟩, area := 100, pixelCount := 25 }

/-- A red 10x10 region, colour-distinct from the white regions. -/
def regionRedD : Region :=
  { color := "red", hex := "#FF0000", rgb := ⟨255, 0, 0⟩,
    bounds := ⟨30, 0, 10, 10⟩, area := 100, pixelCount := 25 }

/-- C3, claim as frozen, fails: for the region set with TWO regions of the
same colour classification ("white") at distant positions, scoring the set
against itself does not return 100 and the instruction list is not empty:
the colour-match lookup pairs the second white target region with the
FIRST white candidate region, producing a position delta of 100 (a -5
deduction and a "Fix" instruction). -/
theorem c3_exact_match_counterexample :
    ¬ (calculateSimpleScore [regionWhiteA, regionWhiteB]
          [regionWhiteA, regionWhiteB] = 100 ∧
        createSimpleInstructions [regionWhiteA, regionWhiteB]
          [regionWhiteA, regionWhiteB] = []) := by
  decide

/-- C3 (amended): for every region set whose regions carry pairwise
distinct colour classifications, the pixel-heuristic scorer applied to
`(R, R)` returns the maximum score 100 and the instruction generator
applied to `(R, R)` returns the empty instruction list.  (The frozen
claim fails when `R` contains two same-coloured regions at sufficiently
different positions or sizes: each such target region is compared against
the first — largest — same-coloured candidate, not against itself.) -/
theorem c3_exact_match_amended (R : List Region)
    (hp : R.Pairwise (fun a b => a.color ≠ b.color)) :
    calculateSimpleScore R R = 100 ∧ createSimpleInstructions R R = [] := by
  have hall4 : ∀ t ∈ R.take 4, findBestColorMatch t R = some t :=
    fun t ht => findBestColorMatch_self R t hp (List.take_subset 4 R ht)
  have hall5 : ∀ t ∈ R.take 5, findBestColorMatch t R = some t :=
    fun t ht => findBestColorMatch_self R t hp (List.take_subset 5 R ht)
  constructor
  · rw [calculateSimpleScore, foldl_scoreStep_fixed R (R.take 4) 100 hall4]
    rfl
  · rw [createSimpleInstructions, foldl_instructionStep_fixed R (R.take 5) [] hall5]
    rfl

/-- Witness for `c3_exact_match_amended` at the two-region set
`[regionWhiteA, regionRedD]` (distinct colours): score 100, no
instructions. -/
theorem c3_exact_match_amended_witness :
    ([regionWhiteA, regionRedD] : List Region).Pairwise (fun a b => a.color ≠ b.color) ∧
      (calculateSimpleScore [regionWhiteA, regionRedD] [regionWhiteA, regionRedD] = 100 ∧
        createSimpleInstructions [regionWhiteA, regionRedD] [regionWhiteA, regionRedD] = []) :=
  ⟨by decide, c3_exact_match_amended [regionWhiteA, regionRedD] (by decide)⟩

/-- C6 (confirmed): for a one-region target and a one-region same-coloured
candidate, the pixel-heuristic score never increases when the candidate's
bounding box is moved farther from the target's (same colour, same width
and height, Manhattan position error at least as large): the position
deduction is a non-decreasing step function of the position delta, so the
score is non-increasing. -/
theorem c6_score_monotone_in_position (t c1 c2 : Region)
    (hc1 : c1.color = t.color) (hc2 : c2.color = t.color)
    (hw : c2.bounds.width = c1.bounds.width)
    (hh : c2.bounds.height = c1.bounds.height)
    (hd : |t.bounds.x - c1.bounds.x| + |t.bounds.y - c1.bounds.y| ≤
      |t.bounds.x - c2.bounds.x| + |t.bounds.y - c2.bounds.y|) :
    calculateSimpleScore [t] [c2] ≤ calculateSimpleScore [t] [c1] := by
  have h1 : findBestColorMatch t [c1] = some c1 := by
    simp [findBestColorMatch, List.find?_cons, hc1]
  have h2 : findBestColorMatch t [c2] = some c2 := by
    simp [findBestColorMatch, List.find?_cons, hc2]
  simp only [calculateSimpleScore, List.take_succ_cons, List.take_nil,
    List.foldl_cons, List.foldl_nil, scoreStep, h1, h2, hw, hh]
  set p1 := |t.bounds.x - c1.bounds.x| + |t.bounds.y - c1.bounds.y| with hp1
  set p2 := |t.bounds.x - c2.bounds.x| + |t.bounds.y - c2.bounds.y| with hp2
  set s := |t.bounds.width - c1.bounds.width| + |t.bounds.height - c1.bounds.height|
    with hs
  split_ifs <;> exact max_le_max le_rfl (by omega)

/-- A copy of the red region shifted 30 pixels down (position error 30). -/
def regionRedNear : Region :=
  { color := "red", hex := "#FF0000", rgb := ⟨255, 0, 0⟩,
    bounds := ⟨30, 30, 10, 10⟩, area := 100, pixelCount := 25 }

/-- A copy of the red region shifted 100 pixels down (position error 100). -/
def regionRedFar : Region :=
  { color := "red", hex := "#FF0000", rgb := ⟨255, 0, 0⟩,
    bounds := ⟨30, 100, 10, 10⟩, area := 100, pixelCount := 25 }

/-- Witness for `c6_score_monotone_in_position`: the farther candidate
(error 100) scores no more than the nearer one (error 30) against the
red target region. -/
theorem c6_score_monotone_in_position_witness :
    regionRedNear.color = regionRedD.color ∧ regionRedFar.color = regionRedD.color ∧
      regionRedFar.bounds.width = regionRedNear.bounds.width ∧
      regionRedFar.bounds.height = regionRedNear.bounds.height ∧
      |regionRedD.bounds.x - regionRedNear.bounds.x| +
        |regionRedD.bounds.y - regionRedNear.bounds.y| ≤
        |regionRedD.bounds.x - regionRedFar.bounds.x| +
        |regionRedD.bounds.y - regionRedFar.bounds.y| ∧
      calculateSimpleScore [regionRedD] [regionRedFar] ≤
        calculateSimpleScore [regionRedD] [regionRedNear] :=
  ⟨by decide, by decide, by decide, by decide, by decide,
    c6_score_monotone_in_position regionRedD regionRedNear regionRedFar
      (by decide) (by decide) (by decide) (by decide) (by decide)⟩

/-! ## Region consolidation (lines 182-299) -/

/-- `regionsOverlap` (lines 221-228): bounding boxes overlap or are within
a 3-pixel margin. -/
def regionsOverlap (bounds1 bounds2 : Bounds) : Bool :=
  let margin : Int := 3
  !(decide (bounds1.x + bounds1.width + margin < bounds2.x) ||
    decide (bounds2.x + bounds2.width + margin < bounds1.x) ||
    decide (bounds1.y + bounds1.height + margin < bounds2.y) ||
    decide (bounds2.y + bounds2.height + margin < bounds1.y))

/-- `shouldMergeRegions` (lines 233-274).  The source's floating-point
comparisons `area > totalImageArea * 0.5` and `area < totalImageArea *
0.1` (with the hard-coded `totalImageArea = 261 * 373`, commented "Target
image size") are rendered exactly by the equivalent integer comparisons
`totalImageArea < 2 * area` and `10 * area < totalImageArea`, which agree
with the double evaluation on every integer area. -/
def shouldMergeRegions (region1 region2 : Region) : Bool :=
  if !(regionsOverlap region1.bounds region2.bounds) then false
  else
    let area1 := region1.area
    let area2 := region2.area
    let totalImageArea : Int := 261 * 373
    if (totalImageArea < 2 * area1 ∧ 10 * area2 < totalImageArea) ∨
        (totalImageArea < 2 * area2 ∧ 10 * area1 < totalImageArea) then false
    else if aspectRatioGT region1.bounds 8 || aspectRatioGT region2.bounds 8 then
      if region1.bounds.height < region1.bounds.width ∧
          region2.bounds.height < region2.bounds.width then
        decide (|region1.bounds.y - region2.bounds.y| ≤ 5)
      else if ¬ region1.bounds.height < region1.bounds.width ∧
          ¬ region2.bounds.height < region2.bounds.width then
        decide (|region1.bounds.x - region2.bounds.x| ≤ 5)
      else false
    else true

/-- `mergeRegions` (lines 279-299): bounding-box union of a non-empty
group, keeping the first region's colour/hex/rgb and summing pixel counts
(the source never calls this with an empty array; the `[]` branch is an
arbitrary inert value). -/
def mergeRegions : List Region → Region
  | [] =>
    { color := "", hex := "", rgb := ⟨0, 0, 0⟩, bounds := ⟨0, 0, 0, 0⟩,
      area := 0, pixelCount := 0 }
  | r :: rest =>
    let allBounds := (r :: rest).map Region.bounds
    let minX := allBounds.foldl (fun m b => min m b.x) r.bounds.x
    let minY := allBounds.foldl (fun m b => min m b.y) r.bounds.y
    let maxX := allBounds.foldl (fun m b => max m (b.x + b.width))
      (r.bounds.x + r.bounds.width)
    let maxY := allBounds.foldl (fun m b => max m (b.y + b.height))
      (r.bounds.y + r.bounds.height)
    { color := r.color, hex := r.hex, rgb := r.rgb,
      bounds := ⟨minX, minY, maxX - minX, maxY - minY⟩,
      area := (maxX - minX) * (maxY - minY),
      pixelCount := (r :: rest).foldl (fun sum q => sum + q.pixelCount) 0 }

/-- The test by which `consolidateOverlappingRegions` (line 200) adds a
later region to the group of the current main region: same colour
classification AND `shouldMergeRegions`. -/
def consolidationMergeTest (mainRegion otherRegion : Region) : Bool :=
  mainRegion.color == otherRegion.color && shouldMergeRegions mainRegion otherRegion

/-- `consolidateOverlappingRegions` (lines 182-216): scan left to right;
the first unused region collects every later unused region passing
`consolidationMergeTest` against it (the test is always against the main
region, not the growing merge), merges the group if it has more than one
member, and the scan continues on the unused remainder.  The recursion is
driven by a fuel argument so the definition stays structurally recursive;
the fuel is the input length, which never runs out because the unused
remainder is a sublist of the tail (`consolidateGo_fuel_irrelevant`). -/
def consolidateGo (fuel : Nat) (regions : List Region) : List Region :=
  match fuel, regions with
  | _, [] => []
  | 0, _ => []
  | fuel + 1, r :: rest =>
    let group := rest.filter (consolidationMergeTest r)
    let remaining := rest.filter (fun o => !(consolidationMergeTest r o))
    (if group.isEmpty then r else mergeRegions (r :: group)) ::
      consolidateGo fuel remaining

def consolidateOverlappingRegions (regions : List Region) : List Region :=
  consolidateGo regions.length regions

/-- A red 10x10 region at x = 0 (first link of the C5 chain). -/
def regionChainA : Region :=
  { color := "red", hex := "#FF0000", rgb := ⟨255, 0, 0⟩,
    bounds := ⟨0, 0, 10, 10⟩, area := 100, pixelCount := 25 }

/-- A red 10x10 region at x = 10, overlapping `regionChainA` within the
3-pixel margin. -/
def regionChainB : Region :=
  { color := "red", hex := "#FF0000", rgb := ⟨255, 0, 0⟩,
    bounds := ⟨10, 0, 10, 10⟩, area := 100, pixelCount := 25 }

/-- A red 10x10 region at x = 22: too far from `regionChainA` (gap 12 >
margin 3) but within the margin of the merged box of A and B. -/
def regionChainC : Region :=
  { color := "red", hex := "#FF0000", rgb := ⟨255, 0, 0⟩,
    bounds := ⟨22, 0, 10, 10⟩, area := 100, pixelCount := 25 }

/-- C5, claim as frozen, fails: consolidating `[A, B, C]` merges only A
and B (C does not overlap A, the fixed main region of the group), giving
`[A∪B, C]`; but the merged box A∪B now overlaps C within the margin, so a
second consolidation merges further — consolidation is not idempotent. -/
theorem c5_idempotent_counterexample :
    consolidateOverlappingRegions
        (consolidateOverlappingRegions [regionChainA, regionChainB, regionChainC]) ≠
      consolidateOverlappingRegions [regionChainA, regionChainB, regionChainC] := by
  decide

/-- C5 (amended): consolidation acts as the identity on any region list in
which no pair of regions passes the same-colour should-merge test, and is
therefore idempotent on such merge-free lists.  In general it is NOT
idempotent: merging can produce a bounding box that newly overlaps a
region the original fragments did not reach (see the counterexample), so
a second application can merge further. -/
theorem consolidateGo_merge_free :
    ∀ (fuel : Nat) (l : List Region), l.length ≤ fuel →
      l.Pairwise (fun a b => consolidationMergeTest a b = false) →
      consolidateGo fuel l = l := by
  intro fuel
  induction fuel with
  | zero =>
    intro l hlen _
    match l, hlen with
    | [], _ => rfl
  | succ n ih =>
    intro l hlen h
    match l with
    | [] => rfl
    | r :: rest =>
      rw [List.pairwise_cons] at h
      have hgroup : rest.filter (consolidationMergeTest r) = [] :=
        List.filter_eq_nil_iff.mpr (fun o ho => by simp [h.1 o ho])
      have hrem : rest.filter (fun o => !(consolidationMergeTest r o)) = rest :=
        List.filter_eq_self.mpr (fun o ho => by simp [h.1 o ho])
      rw [consolidateGo]
      simp only [hgroup, hrem, List.isEmpty_nil, if_pos]
      rw [ih rest (by simpa using hlen) h.2]

theorem c5_consolidation_amended (l : List Region)
    (h : l.Pairwise (fun a b => consolidationMergeTest a b = false)) :
    consolidateOverlappingRegions l = l :=
  consolidateGo_merge_free l.length l le_rfl h

/-- Witness for `c5_consolidation_amended`: the pair `[A, C]` (gap 12,
no merge test passes) is left unchanged by consolidation. -/
theorem c5_consolidation_amended_witness :
    ([regionChainA, regionChainC] : List Region).Pairwise
        (fun a b => consolidationMergeTest a b = false) ∧
      consolidateOverlappingRegions [regionChainA, regionChainC] =
        [regionChainA, regionChainC] :=
  ⟨by decide, c5_consolidation_amended [regionChainA, regionChainC] (by decide)⟩

/-- A red region whose box is 80x75 = 6000 pixels: more than half of a
100x100 analyzed image (such regions pass extraction: red areas above 150
are admitted). -/
def regionBigHalf : Region :=
  { color := "red", hex := "#FF0000", rgb := ⟨255, 0, 0⟩,
    bounds := ⟨0, 0, 80, 75⟩, area := 6000, pixelCount := 1500 }

/-- A red region of 25x20 = 500 pixels inside the big one: less than a
tenth of a 100x100 analyzed image. -/
def regionSmallTenth : Region :=
  { color := "red", hex := "#FF0000", rgb := ⟨255, 0, 0⟩,
    bounds := ⟨10, 10, 25, 20⟩, area := 500, pixelCount := 125 }

/-- C9, claim as frozen, fails: the guard compares areas against the
hard-coded constant `261 * 373 = 97353` ("Target image size"), not
against the analyzed image's own area.  For regions extracted from a
100x100 image (total area 10000), a region covering 60% of that image is
merged with one covering 5% of it, because neither trips the constant
thresholds (2·6000 = 12000 < 97353). -/
theorem c9_merge_guard_counterexample :
    consolidationMergeTest regionBigHalf regionSmallTenth = true ∧
      10000 < 2 * regionBigHalf.area ∧ 10 * regionSmallTenth.area < 10000 := by
  decide

/-- C9 (amended): consolidation groups two regions only if they share a
colour classification and pass `shouldMergeRegions`, which requires their
bounding boxes to overlap within the 3-pixel margin and never merges a
region larger than half of the FIXED reference area `261 * 373 = 97353`
(the hard-coded target-image size) with one smaller than a tenth of that
constant.  (The frozen claim's "of the analyzed image's total area" is
wrong: the constant is used regardless of the image being analyzed.) -/
theorem c9_merge_guard_amended (r1 r2 : Region)
    (h : consolidationMergeTest r1 r2 = true) :
    r1.color = r2.color ∧ regionsOverlap r1.bounds r2.bounds = true ∧
      ¬ (((261 * 373 : Int) < 2 * r1.area ∧ 10 * r2.area < 261 * 373) ∨
        ((261 * 373 : Int) < 2 * r2.area ∧ 10 * r1.area < 261 * 373)) := by
  rw [consolidationMergeTest, Bool.and_eq_true, beq_iff_eq] at h
  obtain ⟨hcol, hsm⟩ := h
  rw [shouldMergeRegions] at hsm
  by_cases hov : regionsOverlap r1.bounds r2.bounds = true
  · refine ⟨hcol, hov, ?_⟩
    rw [hov] at hsm
    simp only [Bool.not_true, Bool.false_eq_true, if_false] at hsm
    intro hbs
    rw [if_pos hbs] at hsm
    exact Bool.false_ne_true hsm
  · exfalso
    have hov' : regionsOverlap r1.bounds r2.bounds = false :=
      Bool.eq_false_iff.mpr (fun hq => hov hq)
    rw [hov'] at hsm
    simp at hsm

/-- Witness for `c9_merge_guard_amended` at the mergeable pair
`(regionChainA, regionChainB)`: they share a colour, overlap within the
margin, and neither trips the large/small guard. -/
theorem c9_merge_guard_amended_witness :
    consolidationMergeTest regionChainA regionChainB = true ∧
      (regionChainA.color = regionChainB.color ∧
        regionsOverlap regionChainA.bounds regionChainB.bounds = true ∧
        ¬ (((261 * 373 : Int) < 2 * regionChainA.area ∧
            10 * regionChainB.area < 261 * 373) ∨
          ((261 * 373 : Int) < 2 * regionChainB.area ∧
            10 * regionChainA.area < 261 * 373))) :=
  ⟨by decide, c9_merge_guard_amended regionChainA regionChainB (by decide)⟩

/-! ## Region extraction (lines 54-177 and 301-479)

The image buffer is the raw RGBA byte list produced by
`sharp(...).ensureAlpha().raw()`: pixel `(x, y)` occupies bytes
`(y * width + x) * 4 .. + 3`.  Out-of-range reads never occur on the scan
path (indices are bounds-checked first); `pixelAt` defaults to 0. -/

def pixelAt (data : List Nat) (idx : Nat) : Nat :=
  data.getD idx 0

/-- Constructor constants (lines 4-7). -/
def colorTolerance : Int := 50

def minRegionSize : Int := 1000

/-- One row of the named-colour table of `rgbToColorName` (lines 402-428). -/
structure NamedColor where
  name : String
  r : Int
  g : Int
  b : Int
  threshold : Int

/-- The named-colour table, in source order (branch order matters: the
first row within Euclidean distance wins). -/
def namedColors : List NamedColor :=
  [⟨"black", 0, 0, 0, 80⟩,
   ⟨"white", 255, 255, 255, 80⟩,
   ⟨"red", 255, 0, 0, 100⟩, ⟨"red", 220, 20, 20, 60⟩,
   ⟨"red", 200, 0, 0, 60⟩, ⟨"red", 180, 0, 0, 50⟩,
   ⟨"yellow", 255, 255, 0, 80⟩, ⟨"yellow", 240, 240, 0, 60⟩,
   ⟨"yellow", 255, 200, 0, 60⟩,
   ⟨"blue", 0, 0, 255, 80⟩, ⟨"blue", 0, 100, 200, 60⟩,
   ⟨"gray", 128, 128, 128, 80⟩, ⟨"gray", 160, 160, 160, 40⟩,
   ⟨"gray", 100, 100, 100, 40⟩]

/-- `rgbToColorName` (lines 400-468).  The source compares
`Math.sqrt(squaredDistance) < threshold`; squaring both sides gives the
exact integer comparison used here (IEEE sqrt is correctly rounded, and
no integer squared distance lands close enough to a threshold square to
flip the comparison). -/
def rgbToColorName (r g b : Int) : String :=
  match namedColors.find? (fun c =>
      decide ((r - c.r) * (r - c.r) + (g - c.g) * (g - c.g) + (b - c.b) * (b - c.b) <
        c.threshold * c.threshold)) with
  | some c => c.name
  | none =>
    if 150 < r ∧ g * 2 < r ∧ b * 2 < r then "red"
    else if 200 < r ∧ 200 < g ∧ b < 100 then "yellow"
    else if |r - g| < 30 ∧ |g - b| < 30 ∧ 50 < r ∧ r < 200 then "gray"
    else if r < 50 ∧ g < 50 ∧ b < 50 then "black"
    else if 180 < r ∧ 180 < g ∧ 180 < b ∧ |r - g| < 30 ∧ |g - b| < 30 ∧ |r - b| < 30 then
      "white"
    else "rgb(" ++ toString r ++ "," ++ toString g ++ "," ++ toString b ++ ")"

/-- Upper-case hexadecimal digit (the source lower-cases via
`toString(16)` then upper-cases the whole string). -/
def hexDigitU (n : Nat) : Char :=
  if n < 10 then Char.ofNat (48 + n) else Char.ofNat (55 + n)

/-- Two-digit upper-case hex of one 0..255 colour component, zero-padded
exactly as lines 473-478 do. -/
def toHexByte (c : Int) : String :=
  let n := c.toNat
  String.mk [hexDigitU (n / 16), hexDigitU (n % 16)]

/-- `rgbToHex` (lines 473-479). -/
def rgbToHex (r g b : Int) : String :=
  "#" ++ toHexByte r ++ toHexByte g ++ toHexByte b

/-- `calculateBounds` (lines 380-395): bounding box of a non-empty sample
list (the source always calls it with at least 5 pixels; the `[]` branch
is an arbitrary inert value). -/
def calculateBounds : List (Int × Int) → Bounds
  | [] => ⟨0, 0, 0, 0⟩
  | p :: ps =>
    let xs := (p :: ps).map Prod.fst
    let ys := (p :: ps).map Prod.snd
    let minX := xs.foldl min p.1
    let maxX := xs.foldl max p.1
    let minY := ys.foldl min p.2
    let maxY := ys.foldl max p.2
    ⟨minX, minY, maxX - minX, maxY - minY⟩

/-- The `while (queue.length > 0)` loop of `floodFillRegion` (lines
138-174): FIFO queue, visited sets keyed by coordinates (the source's
string keys `x,y` are in bijection with the pairs), pixels collected in
marking order, 4-connected neighbours at `neighborStep` appended at the
back.  Fuel-driven: each iteration pops one entry and a marking pushes 4,
and at most one marking happens per in-range coordinate, so
`1 + 4 * width * height` fuel (supplied by `floodFillRegion`) outlasts
the loop. -/
def floodFillLoop (data : List Nat) (width height : Nat) (tR tG tB : Int)
    (neighborStep : Int) :
    Nat → List (Int × Int) → List (Int × Int) → List (Int × Int) → List (Int × Int) →
      List (Int × Int) × List (Int × Int)
  | 0, _, _, visited, pixels => (pixels, visited)
  | _ + 1, [], _, visited, pixels => (pixels, visited)
  | fuel + 1, (x, y) :: queue, regionVisited, visited, pixels =>
    if (x, y) ∈ regionVisited ∨ (x, y) ∈ visited then
      floodFillLoop data width height tR tG tB neighborStep fuel
        queue regionVisited visited pixels
    else if x < 0 ∨ (width : Int) ≤ x ∨ y < 0 ∨ (height : Int) ≤ y then
      floodFillLoop data width height tR tG tB neighborStep fuel
        queue regionVisited visited pixels
    else
      let idx := ((y * (width : Int) + x) * 4).toNat
      let r : Int := pixelAt data idx
      let g : Int := pixelAt data (idx + 1)
      let b : Int := pixelAt data (idx + 2)
      let a : Int := pixelAt data (idx + 3)
      if a < 128 then
        floodFillLoop data width height tR tG tB neighborStep fuel
          queue regionVisited visited pixels
      else if colorTolerance * colorTolerance <
          (r - tR) * (r - tR) + (g - tG) * (g - tG) + (b - tB) * (b - tB) then
        floodFillLoop data width height tR tG tB neighborStep fuel
          queue regionVisited visited pixels
      else
        floodFillLoop data width height tR tG tB neighborStep fuel
          (queue ++ [(x + neighborStep, y), (x - neighborStep, y),
            (x, y + neighborStep), (x, y - neighborStep)])
          ((x, y) :: regionVisited) ((x, y) :: visited) (pixels ++ [(x, y)])

/-- `floodFillRegion` (lines 133-177): runs the queue loop from the seed,
returns `some pixels` when any pixel was collected (`null` otherwise)
together with the updated outer `visited` set.  The colour-distance test
skips pixels with `Math.sqrt(d) > colorTolerance`, i.e. exactly
`colorTolerance^2 < d`. -/
def floodFillRegion (data : List Nat) (width height : Nat) (startX startY : Int)
    (targetR targetG targetB : Int) (visited : List (Int × Int)) (step : Int) :
    Option (List (Int × Int)) × List (Int × Int) :=
  let neighborStep := min step 2
  let res := floodFillLoop data width height targetR targetG targetB neighborStep
    (1 + 4 * width * height) [(startX, startY)] [] visited []
  (if 0 < res.1.length then some res.1 else none, res.2)

/-- The sampled coordinates `0, 2, 4, ...` strictly below `limit`
(the `for (let v = 0; v < limit; v += step)` loops with `step = 2`,
line 59-62). -/
def sampleCoords (limit : Nat) : List Nat :=
  (List.range ((limit + 1) / 2)).map (· * 2)

/-- The scan order of `findMajorRegions`: `y` outer, `x` inner. -/
def scanPoints (width height : Nat) : List (Nat × Nat) :=
  (sampleCoords height).flatMap (fun y => (sampleCoords width).map (fun x => (y, x)))

/-- The shape-dependent admission threshold of lines 87-104. -/
def minAreaThresholdFor (b : Bounds) (color : String) : Int :=
  if aspectRatioGT b 20 then 50
  else if aspectRatioGT b 8 then 200
  else if color = "red" then 150
  else if color = "black" ∧ (b.width ≤ 5 ∨ b.height ≤ 5) then 100
  else minRegionSize

/-- One grid-cell step of the scan loop of `findMajorRegions` (lines
61-118): skip visited or transparent seeds, flood fill, and admit the
region when it has at least 5 pixels and its bounding-box area clears the
shape-dependent threshold. -/
def scanStep (data : List Nat) (width height : Nat)
    (state : List (Int × Int) × List Region) (p : Nat × Nat) :
    List (Int × Int) × List Region :=
  let visited := state.1
  let regions := state.2
  let y := p.1
  let x := p.2
  if ((x : Int), (y : Int)) ∈ visited then (visited, regions)
  else
    let idx := (y * width + x) * 4
    let r : Int := pixelAt data idx
    let g : Int := pixelAt data (idx + 1)
    let b : Int := pixelAt data (idx + 2)
    let a : Int := pixelAt data (idx + 3)
    if a < 128 then (visited, regions)
    else
      let res := floodFillRegion data width height x y r g b visited 2
      match res.1 with
      | none => (res.2, regions)
      | some pixels =>
        if 5 ≤ pixels.length then
          let bounds := calculateBounds pixels
          let area := bounds.width * bounds.height
          let color := rgbToColorName r g b
          if minAreaThresholdFor bounds color ≤ area then
            (res.2, regions ++
              [⟨color, rgbToHex r g b, ⟨r, g, b⟩, bounds, area, (pixels.length : Int)⟩])
          else (res.2, regions)
        else (res.2, regions)

/-- `filterSignificantRegions` (lines 304-336).  The 2% significance cut
`area >= maxArea * 0.02` is rendered by the exact rational equivalent
`maxArea ≤ 50 * area` (no proved claim depends on the float-rounding
boundary of `0.02`). -/
def filterSignificantRegions (regions : List Region) : List Region :=
  match regions with
  | [] => []
  | r0 :: rest =>
    let maxArea := ((r0 :: rest).map Region.area).foldl max r0.area
    (r0 :: rest).filter (fun region =>
      if region.color = "red" then true
      else if aspectRatioGT region.bounds 15 = true ∧ 50 < region.area then true
      else if aspectRatioGT region.bounds 8 = true ∧ 200 < region.area then true
      else if region.color = "black" ∧ (region.bounds.width ≤ 5 ∨ region.bounds.height ≤ 5) ∧
          100 < region.area then true
      else decide (maxArea ≤ 50 * region.area))

/-- Stable insertion of a region into a list sorted by area descending
(equal areas keep their original relative order, as V8's stable sort
does). -/
def insertByArea (r : Region) : List Region → List Region
  | [] => [r]
  | s :: rest => if s.area ≤ r.area then r :: s :: rest else s :: insertByArea r rest

/-- The final `sort((a, b) => b.area - a.area)` of line 127: stable sort
by area descending. -/
def sortByAreaDesc (l : List Region) : List Region :=
  l.foldr insertByArea []

/-- `findMajorRegions` (lines 54-128): scan the sampling grid, flood fill,
admit, consolidate overlapping same-colour regions, filter insignificant
ones, and sort by area descending. -/
def findMajorRegions (data : List Nat) (width height : Nat) : List Region :=
  let scan := (scanPoints width height).foldl (scanStep data width height) ([], [])
  sortByAreaDesc (filterSignificantRegions (consolidateOverlappingRegions scan.2))

theorem mem_sampleCoords {v limit : Nat} (h : v ∈ sampleCoords limit) : v < limit := by
  rw [sampleCoords] at h
  obtain ⟨k, hk, rfl⟩ := List.mem_map.mp h
  rw [List.mem_range] at hk
  omega

theorem mem_scanPoints {p : Nat × Nat} {width height : Nat}
    (h : p ∈ scanPoints width height) : p.1 < height ∧ p.2 < width := by
  rw [scanPoints, List.mem_flatMap] at h
  obtain ⟨y, hy, hx⟩ := h
  obtain ⟨x, hx', rfl⟩ := List.mem_map.mp hx
  exact ⟨mem_sampleCoords hy, mem_sampleCoords hx'⟩

theorem scan_index_lt {x y width height : Nat} (hx : x < width) (hy : y < height) :
    y * width + x < width * height :=
  calc y * width + x < y * width + width := by omega
    _ = (y + 1) * width := by ring
    _ ≤ height * width := Nat.mul_le_mul_right width (by omega)
    _ = width * height := Nat.mul_comm height width

theorem scanStep_transparent (data : List Nat) (width height : Nat) (p : Nat × Nat)
    (ha : pixelAt data ((p.1 * width + p.2) * 4 + 3) < 128) :
    scanStep data width height ([], []) p = ([], []) := by
  rw [scanStep]
  simp only [List.not_mem_nil, if_false]
  rw [if_pos (show ((pixelAt data ((p.1 * width + p.2) * 4 + 3) : Int) < 128) by
    exact_mod_cast ha)]

theorem scanFold_transparent (data : List Nat) (width height : Nat)
    (h : ∀ i, i < width * height → pixelAt data (i * 4 + 3) < 128) :
    ∀ pts : List (Nat × Nat), (∀ p ∈ pts, p.1 < height ∧ p.2 < width) →
      pts.foldl (scanStep data width height) ([], []) = ([], []) := by
  intro pts
  induction pts with
  | nil => intro _; rfl
  | cons p rest ih =>
    intro hall
    obtain ⟨hp1, hp2⟩ := hall p (List.mem_cons_self p rest)
    rw [List.foldl_cons,
      scanStep_transparent data width height p
        (h (p.1 * width + p.2) (scan_index_lt hp2 hp1))]
    exact ih (fun q hq => hall q (List.mem_cons_of_mem p hq))

/-- A 4x4 RGBA buffer whose only above-threshold pixel is a single fully
opaque red pixel at the origin (all other pixels fully transparent). -/
def dataOnePixel : List Nat := [255, 0, 0, 255] ++ List.replicate 60 0

/-- C4, claim as frozen, fails: `dataOnePixel` contains a pixel whose
alpha (255) is at or above the opacity threshold (128), yet
`findMajorRegions` returns the EMPTY region list: the flood fill from the
lone opaque pixel collects a single pixel, which is discarded by the
`pixels.length >= 5` noise cut (and would also fail every area
threshold). -/
theorem c4_opaque_nonempty_counterexample :
    128 ≤ pixelAt dataOnePixel 3 ∧ findMajorRegions dataOnePixel 4 4 = [] := by
  decide

/-- C4 (amended): for every fully transparent image (every pixel's alpha
below the 128 threshold) the region extractor returns the empty list
without failing.  An image with an above-threshold pixel need NOT produce
a non-empty list (the frozen claim's first half): flood-filled components
below the 5-pixel or area thresholds are discarded, as the counterexample
shows. -/
theorem c4_transparent_amended (data : List Nat) (width height : Nat)
    (h : ∀ i, i < width * height → pixelAt data (i * 4 + 3) < 128) :
    findMajorRegions data width height = [] := by
  have hscan : (scanPoints width height).foldl (scanStep data width height) ([], []) =
      ([], []) :=
    scanFold_transparent data width height h _ (fun p hp => mem_scanPoints hp)
  simp only [findMajorRegions, hscan]
  rfl

/-- A fully transparent 2x2 RGBA buffer. -/
def dataTransparent : List Nat := List.replicate 16 0

/-- Witness for `c4_transparent_amended` at the fully transparent 2x2
image. -/
theorem c4_transparent_amended_witness :
    (∀ i, i < 2 * 2 → pixelAt dataTransparent (i * 4 + 3) < 128) ∧
      findMajorRegions dataTransparent 2 2 = [] :=
  ⟨by decide, c4_transparent_amended dataTransparent 2 2 (by decide)⟩

/-! ## C10: the colour-match lookup returns the largest same-colour region -/

theorem mem_insertByArea {x r : Region} :
    ∀ l, x ∈ insertByArea r l ↔ x = r ∨ x ∈ l := by
  intro l
  induction l with
  | nil => simp [insertByArea]
  | cons s rest ih =>
    rw [insertByArea]
    split
    · simp [List.mem_cons]
    · simp only [List.mem_cons, ih]
      tauto

theorem sorted_insertByArea (r : Region) (l : List Region)
    (h : List.Sorted (fun a b : Region => b.area ≤ a.area) l) :
    List.Sorted (fun a b : Region => b.area ≤ a.area) (insertByArea r l) := by
  induction l with
  | nil => exact List.sorted_singleton r
  | cons s rest ih =>
    rw [List.sorted_cons] at h
    rw [insertByArea]
    split
    · rename_i hle
      rw [List.sorted_cons]
      refine ⟨?_, List.sorted_cons.mpr h⟩
      intro b hb
      rcases List.mem_cons.mp hb with rfl | hb'
      · exact hle
      · exact le_trans (h.1 b hb') hle
    · rename_i hlt
      rw [List.sorted_cons]
      refine ⟨?_, ih h.2⟩
      intro b hb
      rcases (mem_insertByArea rest).mp hb with rfl | hb'
      · omega
      · exact h.1 b hb'

theorem sorted_sortByAreaDesc (l : List Region) :
    List.Sorted (fun a b : Region => b.area ≤ a.area) (sortByAreaDesc l) := by
  induction l with
  | nil => exact List.sorted_nil
  | cons r rest ih => exact sorted_insertByArea r _ ih

theorem findBestColorMatch_maximal (t : Region) :
    ∀ (gen : List Region) (m : Region),
      List.Sorted (fun a b : Region => b.area ≤ a.area) gen →
      findBestColorMatch t gen = some m →
      m.color = t.color ∧ ∀ r ∈ gen, r.color = t.color → r.area ≤ m.area := by
  intro gen
  induction gen with
  | nil => intro m _ hfind; simp [findBestColorMatch] at hfind
  | cons g rest ih =>
    intro m hs hfind
    rw [List.sorted_cons] at hs
    rw [findBestColorMatch, List.find?_cons_eq_some] at hfind
    rcases hfind with ⟨hpg, rfl⟩ | ⟨hpg, hfind⟩
    · refine ⟨beq_iff_eq.mp (by simpa using hpg), ?_⟩
      intro r hr hcol
      rcases List.mem_cons.mp hr with rfl | hr'
      · exact le_rfl
      · exact hs.1 r hr'
    · obtain ⟨h1, h2⟩ := ih m hs.2 hfind
      refine ⟨h1, ?_⟩
      intro r hr hcol
      rcases List.mem_cons.mp hr with rfl | hr'
      · exact absurd (beq_iff_eq.mpr hcol) (by simpa using hpg)
      · exact h2 r hr' hcol

/-- C10 (confirmed): (a) the region list produced by `findMajorRegions`
is sorted by area descending; (b) on any such area-descending candidate
list, `findBestColorMatch` returns the first — and hence a largest —
candidate sharing the target's colour classification: every same-coloured
candidate has area at most the match's.  Consequently all position/size
deductions of `calculateSimpleScore` and all fix/move/resize instructions
of `createSimpleInstructions`, which are computed from this match, are
measured against the largest same-colour candidate region, never a
nearer or better-fitting one. -/
theorem c10_first_match_is_largest_same_color :
    (∀ (data : List Nat) (width height : Nat),
        List.Sorted (fun a b : Region => b.area ≤ a.area)
          (findMajorRegions data width height)) ∧
      (∀ (t : Region) (gen : List Region) (m : Region),
        List.Sorted (fun a b : Region => b.area ≤ a.area) gen →
        findBestColorMatch t gen = some m →
        m.color = t.color ∧ ∀ r ∈ gen, r.color = t.color → r.area ≤ m.area) := by
  constructor
  · intro data width height
    exact sorted_sortByAreaDesc _
  · exact fun t gen m hs hf => findBestColorMatch_maximal t gen m hs hf

/-- Witness for `c10_first_match_is_largest_same_color` on the concrete
area-descending candidate list `[regionBigHalf, regionSmallTenth]` (both
red): the lookup for the red target returns the larger `regionBigHalf`. -/
theorem c10_first_match_witness :
    List.Sorted (fun a b : Region => b.area ≤ a.area)
        [regionBigHalf, regionSmallTenth] ∧
      findBestColorMatch regionRedD [regionBigHalf, regionSmallTenth] =
        some regionBigHalf ∧
      (regionBigHalf.color = regionRedD.color ∧
        ∀ r ∈ [regionBigHalf, regionSmallTenth], r.color = regionRedD.color →
          r.area ≤ regionBigHalf.area) :=
  ⟨by decide, by decide,
    c10_first_match_is_largest_same_color.2 regionRedD
      [regionBigHalf, regionSmallTenth] regionBigHalf (by decide) (by decide)⟩

end AgenticP5
